import Mathlib

/-!
Shallow embedding of the MCX gold historical scoring engine:
the indicator library (`indicators.js`: `sma`, `ema`, `trueRange`, `atr14`,
`zscore`), the composite scoring function (`tools/update_mcx.js`:
`computeScore`), and the ingestion step of the same file's `main`
(duplicate-date append guard plus the latest-snapshot construction).

Modelling conventions:
* JS numbers are embedded as exact rationals `ℚ`; fields the code treats as
  possibly missing (`c`, `vol`, `oi`, the mapped-bar fields) are `Option ℚ`.
* JS truthiness tests on numbers (`x && y`) become `≠ 0` tests on present
  values; `null`/`undefined` are `none`.
* `Math.sqrt` (used only for the standard deviation inside `zscore`) has no
  exact rational counterpart, so every definition that reaches `zscore` is
  parametrised by a function `s : ℚ → ℚ` standing for `Math.sqrt`.  The
  concrete instance `sqrtModel` below realises the one property of
  `Math.sqrt` the control flow can observe (`Math.sqrt v = 0 ↔ v ≤ 0` on the
  reachable domain `v ≥ 0`); theorems are stated over arbitrary `s` whenever
  the result does not depend on the choice.
* ISO date strings (compared with `localeCompare`) are embedded as `ℕ` with
  the usual order.
* `Math.round` on the reachable domain is `⌊x + 1/2⌋`.
-/

set_option allowUnsafeReducibility true

attribute [semireducible] Rat.add Rat.mul Rat.inv Rat.sub Rat.div Rat.neg Rat.ofScientific

set_option maxRecDepth 40000

/-- `clamp` from `tools/update_mcx.js`: `Math.max(a, Math.min(b, x))`. -/
def clamp (x a b : ℚ) : ℚ := max a (min b x)

/-- JS `Math.round` (round half toward positive infinity). -/
def jsRound (x : ℚ) : ℤ := ⌊x + 1/2⌋

/-- JS `Math.sign` on (non-NaN) numbers. -/
def jsSign (x : ℚ) : ℚ := if 0 < x then 1 else if x < 0 then -1 else 0

/-- Stand-in for `Math.sqrt`.  It realises the only property of `Math.sqrt`
the embedded code can observe (the zero test `sd === 0` inside `zscore`):
on the reachable domain `v ≥ 0`, `Math.sqrt v = 0 ↔ v = 0`.  Theorems below
quantify over an arbitrary sqrt function wherever the result is independent
of it. -/
def sqrtModel (v : ℚ) : ℚ := if v ≤ 0 then 0 else 1

/-- `sma(values, period)` from `indicators.js`: mean of the last `period`
values; `null` when fewer than `period` values exist. -/
def sma (values : List ℚ) (period : ℕ) : Option ℚ :=
  if values.length < period then none
  else some (((values.drop (values.length - period)).foldl (· + ·) 0) / period)

/-- `ema(values, period)` from `indicators.js`: seeded with the mean of the
first `period` values, then `e = v*k + e*(1-k)` with `k = 2/(period+1)` over
the remaining values in order; `null` when fewer than `period` values
exist. -/
def ema (values : List ℚ) (period : ℕ) : Option ℚ :=
  if values.length < period then none
  else
    some ((values.drop period).foldl
      (fun e v => v * (2 / (period + 1)) + e * (1 - 2 / (period + 1)))
      (((values.take period).foldl (· + ·) 0) / period))

/-- `trueRange(prevClose, high, low)` from `indicators.js`. -/
def trueRange (prevClose : Option ℚ) (high low : ℚ) : ℚ :=
  match prevClose with
  | none => high - low
  | some pc => max (high - low) (max |high - pc| |low - pc|)

/-- The `{h, l, c}` triples handed to `atr14` by `computeScore`
(`c` is possibly missing, in which case `trueRange` sees `null`). -/
structure HLCBar where
  h : ℚ
  l : ℚ
  c : Option ℚ
deriving DecidableEq

/-- The true-range series built inside `atr14`: bar `i` is paired with
`bars[i-1].c` as previous close (`null` for the first bar). -/
def trList (bars : List HLCBar) : List ℚ :=
  List.zipWith (fun b pc => trueRange pc b.h b.l) bars (none :: bars.map HLCBar.c)

/-- `atr14(bars)` from `indicators.js`: Wilder-smoothed 14-period average
true range; `null` when fewer than 15 bars exist. -/
def atr14 (bars : List HLCBar) : Option ℚ :=
  if bars.length < 15 then none
  else
    some (((trList bars).drop 14).foldl
      (fun atr tr => (atr * 13 + tr) / 14)
      (((trList bars).take 14).foldl (· + ·) 0 / 14))

/-- `zscore(values, lookback)` from `indicators.js`, parametrised by the
sqrt function `s` (for `sd = Math.sqrt(varr)`).  `null` when fewer than
`lookback` values exist; `0` when the standard deviation is zero. -/
def zscore (s : ℚ → ℚ) (values : List ℚ) (lookback : ℕ) : Option ℚ :=
  if values.length < lookback then none
  else
    let slice := values.drop (values.length - lookback)
    let mean := (slice.foldl (· + ·) 0) / (lookback : ℚ)
    let varr := (slice.foldl (fun a b => a + (b - mean) * (b - mean)) 0) / (lookback : ℚ)
    let sd := s varr
    if sd = 0 then some 0
    else some ((values.getLast?.getD 0 - mean) / sd)

/-- One element of the history handed to `computeScore`
(`[{date, o,h,l,c, oi, vol, ...}]`); `c`, `vol`, `oi` are the fields the
function reads defensively (`typeof`/optional-chaining/truthiness), so they
are optional here.  `h` and `l` are used raw. -/
structure Bar where
  date : ℕ
  o : Option ℚ
  h : ℚ
  l : ℚ
  c : Option ℚ
  vol : Option ℚ
  oi : Option ℚ
deriving DecidableEq

/-- `history.map(x => x.c).filter(n => typeof n === "number")`. -/
def closesOf (history : List Bar) : List ℚ := (history.map Bar.c).reduceOption

/-- `history.map(x => x.vol).filter(n => typeof n === "number")`. -/
def volsOf (history : List Bar) : List ℚ := (history.map Bar.vol).reduceOption

/-- `history.map(x => x.oi).filter(n => typeof n === "number")`. -/
def oisOf (history : List Bar) : List ℚ := (history.map Bar.oi).reduceOption

/-- `history[history.length - 1]?.c`. -/
def lastCloseOf (history : List Bar) : Option ℚ :=
  (history[history.length - 1]?).bind Bar.c

/-- `history[history.length - 2]?.c`. -/
def prevCloseOf (history : List Bar) : Option ℚ :=
  (history[history.length - 2]?).bind Bar.c

/-- `ret1d = (prev?.c && last?.c) ? (last.c / prev.c - 1) : 0`. -/
def ret1dOf (history : List Bar) : ℚ :=
  match prevCloseOf history, lastCloseOf history with
  | some pc, some lc => if pc ≠ 0 ∧ lc ≠ 0 then lc / pc - 1 else 0
  | _, _ => 0

/-- `base5 = history[history.length - 6]?.c`. -/
def base5Of (history : List Bar) : Option ℚ :=
  (history[history.length - 6]?).bind Bar.c

/-- `ret5d = (base5 && last?.c) ? (last.c / base5 - 1) : 0`. -/
def ret5dOf (history : List Bar) : ℚ :=
  match base5Of history, lastCloseOf history with
  | some b, some lc => if b ≠ 0 ∧ lc ≠ 0 then lc / b - 1 else 0
  | _, _ => 0

/-- `emaSpread = (ema20 != null && ema50 != null && ema50 !== 0) ?
(ema20 / ema50 - 1) : 0`. -/
def emaSpreadOf (history : List Bar) : ℚ :=
  match ema (closesOf history) 20, ema (closesOf history) 50 with
  | some a, some b => if b ≠ 0 then a / b - 1 else 0
  | _, _ => 0

/-- `atr = atr14(history.map(x => ({h: x.h, l: x.l, c: x.c})))`. -/
def atrOf (history : List Bar) : Option ℚ :=
  atr14 (history.map fun x => ⟨x.h, x.l, x.c⟩)

/-- `volZ = zscore(vols, 60) ?? 0`. -/
def volZOf (s : ℚ → ℚ) (history : List Bar) : ℚ :=
  (zscore s (volsOf history) 60).getD 0

/-- `oiZ = zscore(ois, 60) ?? 0`. -/
def oiZOf (s : ℚ → ℚ) (history : List Bar) : ℚ :=
  (zscore s (oisOf history) 60).getD 0

/-- `trend = clamp(emaSpread * 10, -1, 1)`. -/
def trendOf (history : List Bar) : ℚ := clamp (emaSpreadOf history * 10) (-1) 1

/-- `mom = clamp((ret5d * 8) + (ret1d * 3), -1, 1)`. -/
def momentumOf (history : List Bar) : ℚ :=
  clamp (ret5dOf history * 8 + ret1dOf history * 3) (-1) 1

/-- `participation = clamp((oiZ / 3) + (volZ / 3), -1, 1)`. -/
def participationOf (s : ℚ → ℚ) (history : List Bar) : ℚ :=
  clamp (oiZOf s history / 3 + volZOf s history / 3) (-1) 1

/-- `atrPct = (atr != null && last?.c) ? (atr / last.c) : 0`. -/
def atrPctOf (history : List Bar) : ℚ :=
  match atrOf history, lastCloseOf history with
  | some a, some lc => if lc ≠ 0 then a / lc else 0
  | _, _ => 0

/-- `riskPenalty = clamp((atrPct - 0.01) * 20, 0, 0.6)`. -/
def riskPenaltyOf (history : List Bar) : ℚ :=
  clamp ((atrPctOf history - 0.01) * 20) 0 0.6

/-- `score = clamp(0.5 * trend + 0.3 * mom + 0.2 * participation, -1, 1)`. -/
def scoreOf (s : ℚ → ℚ) (history : List Bar) : ℚ :=
  clamp (0.5 * trendOf history + 0.3 * momentumOf history
    + 0.2 * participationOf s history) (-1) 1

/-- `verdict = score > 0.25 ? "BUY" : score < -0.25 ? "SELL" : "HOLD"`. -/
def verdictOfScore (score : ℚ) : String :=
  if score > 0.25 then "BUY" else if score < -0.25 then "SELL" else "HOLD"

/-- `agreement`: fraction of the three sub-signals whose `Math.sign` matches
the sign of `score`. -/
def agreementOf (s : ℚ → ℚ) (history : List Bar) : ℚ :=
  (([if jsSign (trendOf history) = jsSign (scoreOf s history) then (1 : ℚ) else 0,
     if jsSign (momentumOf history) = jsSign (scoreOf s history) then 1 else 0,
     if jsSign (participationOf s history) = jsSign (scoreOf s history) then 1 else 0]).foldl
    (· + ·) 0) / 3

/-- `rawConf = 0.55 * Math.abs(score) + 0.25 * agreement + 0.20 * dataQuality`
with `dataQuality = 1`. -/
def rawConfOf (s : ℚ → ℚ) (history : List Bar) : ℚ :=
  0.55 * |scoreOf s history| + 0.25 * agreementOf s history + 0.20 * 1

/-- `confidence = Math.round(100 * clamp(rawConf * (1 - riskPenalty), 0, 1))`. -/
def confidenceOf (s : ℚ → ℚ) (history : List Bar) : ℤ :=
  jsRound (100 * clamp (rawConfOf s history * (1 - riskPenaltyOf history)) 0 1)

/-- The named indicator values placed in the `signals` object of a full
(non-guard) `computeScore` result. -/
structure SignalValues where
  ret1d : ℚ
  ret5d : ℚ
  ema20 : Option ℚ
  ema50 : Option ℚ
  emaSpread : ℚ
  atr : Option ℚ
  atrPct : ℚ
  volZ60 : ℚ
  oiZ60 : ℚ
  trend : ℚ
  momentum : ℚ
  participation : ℚ
deriving DecidableEq

/-- The `signals` object: either the guard clause's diagnostic reason or the
full indicator values. -/
inductive Signals where
  | insufficient (reason : String)
  | computed (v : SignalValues)
deriving DecidableEq

/-- The value returned by `computeScore`. -/
structure ScoreResult where
  score : ℚ
  verdict : String
  confidence : ℤ
  signals : Signals
deriving DecidableEq

/-- `computeScore(history)` from `tools/update_mcx.js`. -/
def computeScore (s : ℚ → ℚ) (history : List Bar) : ScoreResult :=
  if history.length < 60 then
    { score := 0, verdict := "HOLD", confidence := 0,
      signals := Signals.insufficient "need >= 60 days history" }
  else
    { score := scoreOf s history
      verdict := verdictOfScore (scoreOf s history)
      confidence := confidenceOf s history
      signals := Signals.computed
        { ret1d := ret1dOf history
          ret5d := ret5dOf history
          ema20 := ema (closesOf history) 20
          ema50 := ema (closesOf history) 50
          emaSpread := emaSpreadOf history
          atr := atrOf history
          atrPct := atrPctOf history
          volZ60 := volZOf s history
          oiZ60 := oiZOf s history
          trend := trendOf history
          momentum := momentumOf history
          participation := participationOf s history } }

/-- The `ret_5d` entry of a result's `signals` object (when present). -/
def ret5dSignal (r : ScoreResult) : Option ℚ :=
  match r.signals with
  | Signals.insufficient _ => none
  | Signals.computed v => some v.ret5d

/-- The `trend` entry of a result's `signals` object (when present). -/
def trendSignal (r : ScoreResult) : Option ℚ :=
  match r.signals with
  | Signals.insufficient _ => none
  | Signals.computed v => some v.trend

/-- The `momentum` entry of a result's `signals` object (when present). -/
def momentumSignal (r : ScoreResult) : Option ℚ :=
  match r.signals with
  | Signals.insufficient _ => none
  | Signals.computed v => some v.momentum

/-! ## Concrete inputs used by witnesses and counterexamples -/

/-- Close price `i` of the 60-bar linearly rising scenario: from 2000 (bar 0)
to 2100 (bar 59). -/
def risingClose (i : ℕ) : ℚ := 2000 + 100 * i / 59

/-- 60 ascending-date bars whose closes rise linearly from 2000 to 2100,
with `high = low = close` and constant volume / open interest. -/
def risingHistory : List Bar :=
  (List.range 60).map fun i =>
    { date := i, o := some (risingClose i), h := risingClose i, l := risingClose i,
      c := some (risingClose i), vol := some 500, oi := some 1000 }

/-- `risingHistory` with the close of bar 54 (= index `length - 6`) removed. -/
def gapHistory : List Bar :=
  (List.range 60).map fun i =>
    { date := i, o := some (risingClose i), h := risingClose i, l := risingClose i,
      c := if i = 54 then none else some (risingClose i),
      vol := some 500, oi := some 1000 }

/-- `risingHistory` with widened high/low ranges but identical dates, closes,
volumes and open interests. -/
def rangedHistory : List Bar :=
  (List.range 60).map fun i =>
    { date := i, o := some (risingClose i), h := risingClose i + 37,
      l := risingClose i - 21, c := some (risingClose i),
      vol := some 500, oi := some 1000 }

/-- An arbitrary well-formed bar. -/
def sampleBar : Bar :=
  { date := 0, o := some 10, h := 12, l := 9, c := some 11, vol := some 3, oi := some 7 }

/-- A 60-bar history with constant `close = high = low = 100` and constant
volume / open interest. -/
def flatHistory : List Bar :=
  (List.range 60).map fun i =>
    { date := i, o := some 100, h := 100, l := 100, c := some 100,
      vol := some 9, oi := some 4 }

/-! ## The spec's descriptions of EMA and ATR (for the refinement claims) -/

/-- The spec's EMA recurrence `e_i = value_i * k + e_{i-1} * (1-k)`, blended
forward through a sequence in order. -/
def emaLoop (k : ℚ) : ℚ → List ℚ → ℚ
  | e, [] => e
  | e, v :: rest => emaLoop k (v * k + e * (1 - k)) rest

/-- The spec's EMA: seeded with the simple moving average of the first
`period` elements, then the recurrence with `k = 2/(period+1)` over the
remainder; unavailable when fewer than `period` values exist. -/
def emaSpec (values : List ℚ) (period : ℕ) : Option ℚ :=
  if values.length < period then none
  else
    some (emaLoop (2 / (period + 1))
      ((sma (values.take period) period).getD 0)
      (values.drop period))

/-- The spec's true-range series: the true range of every bar, each using the
prior bar's close as reference (absent for the first bar). -/
def trsSpec : Option ℚ → List HLCBar → List ℚ
  | _, [] => []
  | pc, b :: rest => trueRange pc b.h b.l :: trsSpec b.c rest

/-- The spec's Wilder smoothing recurrence `atr = (atr*13 + tr)/14`. -/
def wilderLoop : ℚ → List ℚ → ℚ
  | atr, [] => atr
  | atr, tr :: rest => wilderLoop ((atr * 13 + tr) / 14) rest

/-- The spec's ATR: true range of every bar, ATR seeded as the simple mean of
the first 14 true ranges, Wilder recurrence for each subsequent true range;
unavailable when fewer than 15 bars exist. -/
def atr14Spec (bars : List HLCBar) : Option ℚ :=
  if bars.length < 15 then none
  else
    some (wilderLoop (((trsSpec none bars).take 14).foldl (· + ·) 0 / 14)
      ((trsSpec none bars).drop 14))

/-! ## Helper lemmas -/

lemma emaLoop_eq_foldl (k : ℚ) (l : List ℚ) (e : ℚ) :
    emaLoop k e l = l.foldl (fun e v => v * k + e * (1 - k)) e := by
  induction l generalizing e with
  | nil => rfl
  | cons v rest ih => simp only [emaLoop, List.foldl_cons, ih]

lemma wilderLoop_eq_foldl (l : List ℚ) (a : ℚ) :
    wilderLoop a l = l.foldl (fun atr tr => (atr * 13 + tr) / 14) a := by
  induction l generalizing a with
  | nil => rfl
  | cons tr rest ih => simp only [wilderLoop, List.foldl_cons, ih]

lemma trsSpec_eq_zipWith (bars : List HLCBar) : ∀ pc : Option ℚ,
    trsSpec pc bars
      = List.zipWith (fun b q => trueRange q b.h b.l) bars (pc :: bars.map HLCBar.c) := by
  induction bars with
  | nil => intro pc; rfl
  | cons b rest ih =>
      intro pc
      simp only [trsSpec, List.map_cons, List.zipWith_cons_cons, ih b.c]

lemma trList_eq_trsSpec (bars : List HLCBar) : trList bars = trsSpec none bars := by
  rw [trsSpec_eq_zipWith]; rfl

/-! ## C4: EMA matches the spec's seeded-fold description -/

/-- C4: `ema(values, period)` equals the spec's description: unavailable for
fewer than `period` values, otherwise the fold `e_i = value_i*k + e_{i-1}*(1-k)`
with `k = 2/(period+1)` over the post-seed values, seeded with the simple
moving average of the first `period` elements. -/
theorem ema_matches_spec (values : List ℚ) (period : ℕ) :
    ema values period = emaSpec values period := by
  unfold ema emaSpec
  by_cases h : values.length < period
  · simp only [if_pos h]
  · rw [if_neg h, if_neg h, emaLoop_eq_foldl]
    have ht : (values.take period).length = period := by
      rw [List.length_take]; omega
    unfold sma
    rw [if_neg (by omega : ¬ (values.take period).length < period)]
    simp only [ht, Nat.sub_self, List.drop_zero, Option.getD_some]

/-! ## C5: ATR matches the spec's Wilder description -/

/-- C5: `atr14(bars)` equals the spec's description: unavailable for fewer
than 15 bars, otherwise the true range of every bar (prior bar's close as
reference, `high - low` for the first bar), seeded with the simple mean of
the first 14 true ranges, then `atr = (atr*13 + tr)/14` for each subsequent
true range. -/
theorem atr14_matches_spec (bars : List HLCBar) :
    atr14 bars = atr14Spec bars := by
  unfold atr14 atr14Spec
  by_cases h : bars.length < 15
  · simp only [if_pos h]
  · rw [if_neg h, if_neg h, wilderLoop_eq_foldl, trList_eq_trsSpec]

/-! ## C3: the insufficient-history guard -/

/-- C3: for any history of fewer than 60 bars, `computeScore` returns
`score = 0`, `verdict = "HOLD"`, `confidence = 0` together with the
diagnostic reason, regardless of the bars' contents. -/
theorem short_history_guard (s : ℚ → ℚ) (history : List Bar)
    (h : history.length < 60) :
    computeScore s history =
      { score := 0, verdict := "HOLD", confidence := 0,
        signals := Signals.insufficient "need >= 60 days history" } := by
  unfold computeScore
  rw [if_pos h]

/-- Witness for C3 at a concrete 59-bar history. -/
theorem short_history_guard_witness :
    computeScore sqrtModel (List.replicate 59 sampleBar) =
      { score := 0, verdict := "HOLD", confidence := 0,
        signals := Signals.insufficient "need >= 60 days history" } :=
  short_history_guard sqrtModel (List.replicate 59 sampleBar) (by decide)

/-! ## Projection lemmas for `computeScore` -/

lemma computeScore_of_ge (s : ℚ → ℚ) (history : List Bar)
    (h : ¬ history.length < 60) :
    computeScore s history =
      { score := scoreOf s history
        verdict := verdictOfScore (scoreOf s history)
        confidence := confidenceOf s history
        signals := Signals.computed
          { ret1d := ret1dOf history
            ret5d := ret5dOf history
            ema20 := ema (closesOf history) 20
            ema50 := ema (closesOf history) 50
            emaSpread := emaSpreadOf history
            atr := atrOf history
            atrPct := atrPctOf history
            volZ60 := volZOf s history
            oiZ60 := oiZOf s history
            trend := trendOf history
            momentum := momentumOf history
            participation := participationOf s history } } := by
  unfold computeScore
  rw [if_neg h]

lemma computeScore_of_lt (s : ℚ → ℚ) (history : List Bar)
    (h : history.length < 60) :
    computeScore s history =
      { score := 0, verdict := "HOLD", confidence := 0,
        signals := Signals.insufficient "need >= 60 days history" } := by
  unfold computeScore
  rw [if_pos h]

/-! ## C6: verdict thresholds are strict -/

/-- C6: the verdict is `"BUY"` exactly when `score > 0.25` and `"SELL"`
exactly when `score < -0.25`; scores of exactly `0.25` and `-0.25` give
`"HOLD"`. -/
theorem verdict_thresholds (s : ℚ → ℚ) (history : List Bar) :
    ((computeScore s history).verdict = "BUY" ↔ 0.25 < (computeScore s history).score) ∧
    ((computeScore s history).verdict = "SELL" ↔ (computeScore s history).score < -0.25) ∧
    ((computeScore s history).score = 0.25 → (computeScore s history).verdict = "HOLD") ∧
    ((computeScore s history).score = -0.25 → (computeScore s history).verdict = "HOLD") := by
  by_cases h : history.length < 60
  · rw [computeScore_of_lt s history h]
    refine ⟨?_, ?_, ?_, ?_⟩ <;> simp <;> norm_num
  · rw [computeScore_of_ge s history h]
    dsimp only
    generalize scoreOf s history = sc
    unfold verdictOfScore
    split_ifs with h1 h2
    · exact ⟨⟨fun _ => h1, fun _ => rfl⟩,
        ⟨fun hs => absurd hs (by decide), fun hlt => absurd hlt (by linarith)⟩,
        fun hs => by rw [hs] at h1; norm_num at h1,
        fun hs => by rw [hs] at h1; norm_num at h1⟩
    · exact ⟨⟨fun hs => absurd hs (by decide), fun hgt => absurd hgt h1⟩,
        ⟨fun _ => h2, fun _ => rfl⟩,
        fun hs => by rw [hs] at h2; norm_num at h2,
        fun hs => by rw [hs] at h2; norm_num at h2⟩
    · exact ⟨⟨fun hs => absurd hs (by decide), fun hgt => absurd hgt h1⟩,
        ⟨fun hs => absurd hs (by decide), fun hlt => absurd hlt h2⟩,
        fun _ => rfl, fun _ => rfl⟩

/-- The close used for the first 50 bars of `quarterPosHistory`; chosen so
that `ema20/ema50 - 1 = 1/20` exactly, making the composite score exactly
`0.25`. -/
def quarterPosClose : ℚ :=
  192495764212759061038963000 / 226122302525027576572075249

/-- The close used for the first 50 bars of `quarterNegHistory`; chosen so
that `ema20/ema50 - 1 = -1/20` exactly, making the composite score exactly
`-0.25`. -/
def quarterNegClose : ℚ :=
  214670160255911575929461000 / 181043621943643060396348751

/-- A 60-bar history whose composite score is exactly `0.25`. -/
def quarterPosHistory : List Bar :=
  (List.range 60).map fun i =>
    { date := i, o := some 1, h := 1, l := 1,
      c := some (if i < 50 then quarterPosClose else 1),
      vol := some 2, oi := some 2 }

/-- A 60-bar history whose composite score is exactly `-0.25`. -/
def quarterNegHistory : List Bar :=
  (List.range 60).map fun i =>
    { date := i, o := some 1, h := 1, l := 1,
      c := some (if i < 50 then quarterNegClose else 1),
      vol := some 2, oi := some 2 }

/-- Witness for C6: concrete histories whose scores are exactly `0.25` and
`-0.25` both map to `"HOLD"`. -/
theorem verdict_thresholds_witness :
    (computeScore sqrtModel quarterPosHistory).verdict = "HOLD" ∧
    (computeScore sqrtModel quarterNegHistory).verdict = "HOLD" :=
  ⟨(verdict_thresholds sqrtModel quarterPosHistory).2.2.1 (by decide),
   (verdict_thresholds sqrtModel quarterNegHistory).2.2.2 (by decide)⟩

/-! ## Helper lemmas about constant windows -/

lemma foldl_add_replicate (n : ℕ) (a acc : ℚ) :
    (List.replicate n a).foldl (· + ·) acc = acc + n * a := by
  induction n generalizing acc with
  | zero => simp
  | succ m ih =>
      rw [List.replicate_succ, List.foldl_cons, ih]
      push_cast
      ring

lemma foldl_fixed {f : ℚ → ℚ → ℚ} {e a : ℚ} (hf : f e a = e) (n : ℕ) :
    (List.replicate n a).foldl f e = e := by
  induction n with
  | zero => rfl
  | succ m ih => rw [List.replicate_succ, List.foldl_cons, hf, ih]

/-- `zscore` on a window of equal values is exactly `0`, for any sqrt
function: either the zero-deviation test fires, or the numerator
`last - mean` is `0`. -/
lemma zscore_const_window (s : ℚ → ℚ) (values : List ℚ) (lookback : ℕ) (a : ℚ)
    (hpos : 0 < lookback) (hlen : lookback ≤ values.length)
    (hall : ∀ x ∈ values.drop (values.length - lookback), x = a) :
    zscore s values lookback = some 0 := by
  have hslice : values.drop (values.length - lookback) = List.replicate lookback a := by
    rw [List.eq_replicate_iff]
    exact ⟨by rw [List.length_drop]; omega, hall⟩
  have hlast : values.getLast? = some a := by
    conv_lhs => rw [← List.take_append_drop (values.length - lookback) values]
    rw [List.getLast?_append, hslice, List.getLast?_replicate]
    simp [Nat.pos_iff_ne_zero.mp hpos]
  have hlb : (lookback : ℚ) ≠ 0 := Nat.cast_ne_zero.mpr (by omega)
  unfold zscore
  rw [if_neg (by omega)]
  dsimp only
  rw [hslice, foldl_add_replicate]
  have hmean : (0 + (lookback : ℚ) * a) / (lookback : ℚ) = a := by field_simp
  rw [hmean, foldl_fixed (by ring) lookback, zero_div]
  by_cases hs0 : s 0 = 0
  · rw [if_pos hs0]
  · rw [if_neg hs0, hlast]
    simp

/-! ## C7: guard behaviour of the indicator library -/

/-- C7: every indicator function returns "unavailable" (`none`) on inputs
shorter than its period/lookback (for `atr14`, fewer than 15 bars), and
`zscore` returns exactly `0` whenever the trailing window has zero variance
(all values equal), for any sqrt function. -/
theorem indicator_guards :
    (∀ (values : List ℚ) (period : ℕ), values.length < period → sma values period = none) ∧
    (∀ (values : List ℚ) (period : ℕ), values.length < period → ema values period = none) ∧
    (∀ bars : List HLCBar, bars.length < 15 → atr14 bars = none) ∧
    (∀ (s : ℚ → ℚ) (values : List ℚ) (lookback : ℕ),
        values.length < lookback → zscore s values lookback = none) ∧
    (∀ (s : ℚ → ℚ) (values : List ℚ) (lookback : ℕ) (a : ℚ),
        0 < lookback → lookback ≤ values.length →
        (∀ x ∈ values.drop (values.length - lookback), x = a) →
        zscore s values lookback = some 0) := by
  refine ⟨?_, ?_, ?_, ?_, ?_⟩
  · intro v p h; unfold sma; rw [if_pos h]
  · intro v p h; unfold ema; rw [if_pos h]
  · intro bs h; unfold atr14; rw [if_pos h]
  · intro s v lb h; unfold zscore; rw [if_pos h]
  · exact fun s v lb a h1 h2 h3 => zscore_const_window s v lb a h1 h2 h3

/-- Witness for C7 at concrete short inputs and a concrete zero-variance
window. -/
theorem indicator_guards_witness :
    sma [1, 2] 5 = none ∧ ema [1, 2] 5 = none ∧
    atr14 [⟨3, 1, some 2⟩] = none ∧
    zscore sqrtModel [1, 2] 5 = none ∧
    zscore sqrtModel [3, 3, 3] 2 = some 0 :=
  ⟨indicator_guards.1 [1, 2] 5 (by decide),
   indicator_guards.2.1 [1, 2] 5 (by decide),
   indicator_guards.2.2.1 [⟨3, 1, some 2⟩] (by decide),
   indicator_guards.2.2.2.1 sqrtModel [1, 2] 5 (by decide),
   indicator_guards.2.2.2.2 sqrtModel [3, 3, 3] 2 3 (by decide) (by decide) (by decide)⟩

/-! ## C1: the 60-bar linearly rising scenario -/

lemma zscore_replicate (s : ℚ → ℚ) (n lookback : ℕ) (a : ℚ)
    (hpos : 0 < lookback) (hlen : lookback ≤ n) :
    zscore s (List.replicate n a) lookback = some 0 :=
  zscore_const_window s _ lookback a hpos (by simpa using hlen) (by
    intro x hx
    rw [List.drop_replicate] at hx
    exact (List.mem_replicate.mp hx).2)

/-- `computeScore` depends on the sqrt function only through the two
`zscore` calls. -/
lemma computeScore_ext (s₁ s₂ : ℚ → ℚ) (history : List Bar)
    (hv : zscore s₁ (volsOf history) 60 = zscore s₂ (volsOf history) 60)
    (ho : zscore s₁ (oisOf history) 60 = zscore s₂ (oisOf history) 60) :
    computeScore s₁ history = computeScore s₂ history := by
  have hvol : volZOf s₁ history = volZOf s₂ history := by unfold volZOf; rw [hv]
  have hoi : oiZOf s₁ history = oiZOf s₂ history := by unfold oiZOf; rw [ho]
  have hpart : participationOf s₁ history = participationOf s₂ history := by
    unfold participationOf; rw [hvol, hoi]
  have hscore : scoreOf s₁ history = scoreOf s₂ history := by
    unfold scoreOf; rw [hpart]
  have hagree : agreementOf s₁ history = agreementOf s₂ history := by
    unfold agreementOf; rw [hscore, hpart]
  have hraw : rawConfOf s₁ history = rawConfOf s₂ history := by
    unfold rawConfOf; rw [hscore, hagree]
  have hconf : confidenceOf s₁ history = confidenceOf s₂ history := by
    unfold confidenceOf; rw [hraw]
  by_cases h : history.length < 60
  · rw [computeScore_of_lt s₁ history h, computeScore_of_lt s₂ history h]
  · rw [computeScore_of_ge s₁ history h, computeScore_of_ge s₂ history h,
      hscore, hconf, hvol, hoi, hpart]

/-- Counterexample to C1 as stated: on the 60-bar linearly rising history the
verdict is not `"BUY"` (the composite score is ≈ 0.072, below the 0.25
threshold). -/
theorem rising_history_not_buy :
    (computeScore sqrtModel risingHistory).verdict ≠ "BUY" := by decide

/-- C1 amended: on the 60-bar linearly rising history (closes 2000 → 2100,
flat volume/open interest), `trend` and `momentum` are positive and
`confidence` is positive, but the verdict is `"HOLD"` (not `"BUY"`), for any
sqrt function. -/
theorem rising_history_bundle (s : ℚ → ℚ) :
    0 < (trendSignal (computeScore s risingHistory)).getD 0 ∧
    0 < (momentumSignal (computeScore s risingHistory)).getD 0 ∧
    (computeScore s risingHistory).verdict = "HOLD" ∧
    0 < (computeScore s risingHistory).confidence := by
  have hv : volsOf risingHistory = List.replicate 60 500 := by decide
  have ho : oisOf risingHistory = List.replicate 60 1000 := by decide
  have hz1 : ∀ t : ℚ → ℚ, zscore t (volsOf risingHistory) 60 = some 0 := fun t => by
    rw [hv]; exact zscore_replicate t 60 60 500 (by norm_num) le_rfl
  have hz2 : ∀ t : ℚ → ℚ, zscore t (oisOf risingHistory) 60 = some 0 := fun t => by
    rw [ho]; exact zscore_replicate t 60 60 1000 (by norm_num) le_rfl
  rw [computeScore_ext s sqrtModel risingHistory
    (by rw [hz1 s, hz1 sqrtModel]) (by rw [hz2 s, hz2 sqrtModel])]
  refine ⟨by decide, by decide, by decide, by decide⟩

/-! ## C8: the 5-day return uses index `length - 6` -/

/-- C8: for histories of at least 60 bars the `ret_5d` signal equals
`close[last] / close[length-6] - 1` (`base5Of` reads index `length - 6`, a
6-element lookback) when both closes are present and nonzero, and equals `0`
when the close at index `length - 6` is missing. -/
theorem ret5d_uses_six_back (s : ℚ → ℚ) (history : List Bar)
    (h60 : 60 ≤ history.length) :
    (∀ lc b, lastCloseOf history = some lc → lc ≠ 0 →
        base5Of history = some b → b ≠ 0 →
        ret5dSignal (computeScore s history) = some (lc / b - 1)) ∧
    (base5Of history = none →
        ret5dSignal (computeScore s history) = some 0) := by
  have hge : ¬ history.length < 60 := by omega
  rw [computeScore_of_ge s history hge]
  unfold ret5dSignal
  dsimp only
  constructor
  · intro lc b hlc hlc0 hb hb0
    unfold ret5dOf
    rw [hlc, hb]
    simp [hb0, hlc0]
  · intro hb
    unfold ret5dOf
    rw [hb]

/-- Witness for C8: the rising history (both closes present) and the same
history with the close at index 54 removed. -/
theorem ret5d_uses_six_back_witness :
    ret5dSignal (computeScore sqrtModel risingHistory) = some (2100 / (123400 / 59) - 1) ∧
    ret5dSignal (computeScore sqrtModel gapHistory) = some 0 :=
  ⟨(ret5d_uses_six_back sqrtModel risingHistory (by decide)).1 2100 (123400 / 59)
      (by decide) (by decide) (by decide) (by decide),
   (ret5d_uses_six_back sqrtModel gapHistory (by decide)).2 (by decide)⟩

/-! ## C10: constant histories score 0 but confidence 45 -/

lemma reduceOption_replicate_some (n : ℕ) (a : ℚ) :
    (List.replicate n (some a)).reduceOption = List.replicate n a := by
  induction n with
  | zero => rfl
  | succ m ih =>
      rw [List.replicate_succ, List.replicate_succ, ← ih]
      simp [List.reduceOption_cons_of_some]

lemma ema_replicate (n p : ℕ) (a : ℚ) (hp : 0 < p) (hpn : p ≤ n) :
    ema (List.replicate n a) p = some a := by
  unfold ema
  rw [if_neg (by rw [List.length_replicate]; omega)]
  rw [List.take_replicate, List.drop_replicate, min_eq_left hpn, foldl_add_replicate]
  have hpq : (p : ℚ) ≠ 0 := Nat.cast_ne_zero.mpr (by omega)
  have hseed : (0 + (p : ℚ) * a) / (p : ℚ) = a := by field_simp
  rw [hseed, foldl_fixed (by ring) (n - p)]

lemma trsSpec_const (cv : ℚ) : ∀ (n : ℕ) (pc : Option ℚ), pc = none ∨ pc = some cv →
    trsSpec pc (List.replicate n ⟨cv, cv, some cv⟩) = List.replicate n 0 := by
  intro n
  induction n with
  | zero => intro pc _; rfl
  | succ m ih =>
      intro pc hpc
      rw [List.replicate_succ]
      show trueRange pc cv cv :: trsSpec (some cv) (List.replicate m _) = _
      rw [ih (some cv) (Or.inr rfl)]
      have htr : trueRange pc cv cv = 0 := by
        rcases hpc with h | h <;> subst h <;> simp [trueRange]
      rw [htr, List.replicate_succ]

lemma atr14_const (n : ℕ) (cv : ℚ) (hn : 15 ≤ n) :
    atr14 (List.replicate n ⟨cv, cv, some cv⟩) = some 0 := by
  unfold atr14
  rw [if_neg (by rw [List.length_replicate]; omega)]
  rw [trList_eq_trsSpec, trsSpec_const cv n none (Or.inl rfl),
    List.take_replicate, List.drop_replicate, foldl_add_replicate]
  have hseed : ((0 : ℚ) + ((14 ⊓ n : ℕ) : ℚ) * 0) / 14 = 0 := by norm_num
  rw [hseed, foldl_fixed (by norm_num) (n - 14)]

/-- C10: `computeScore` on any history of at least 60 bars with constant
`close = high = low` and constant volume and open interest returns
`score = 0` and `verdict = "HOLD"` but `confidence = 45`: the zero-valued
sub-signals sign-match the zero score, so agreement is `1` and the raw
confidence `0.25 + 0.20 = 0.45` survives a zero risk penalty. -/
theorem flat_history_confidence (s : ℚ → ℚ) (history : List Bar) (cv v w : ℚ)
    (h60 : 60 ≤ history.length)
    (hbars : ∀ b ∈ history,
      b.h = cv ∧ b.l = cv ∧ b.c = some cv ∧ b.vol = some v ∧ b.oi = some w) :
    (computeScore s history).score = 0 ∧
    (computeScore s history).verdict = "HOLD" ∧
    (computeScore s history).confidence = 45 := by
  have hmapc : history.map Bar.c = List.replicate history.length (some cv) := by
    rw [List.eq_replicate_iff]
    refine ⟨by simp, fun b hb => ?_⟩
    obtain ⟨x, hx, rfl⟩ := List.mem_map.mp hb
    exact (hbars x hx).2.2.1
  have hmapv : history.map Bar.vol = List.replicate history.length (some v) := by
    rw [List.eq_replicate_iff]
    refine ⟨by simp, fun b hb => ?_⟩
    obtain ⟨x, hx, rfl⟩ := List.mem_map.mp hb
    exact (hbars x hx).2.2.2.1
  have hmapw : history.map Bar.oi = List.replicate history.length (some w) := by
    rw [List.eq_replicate_iff]
    refine ⟨by simp, fun b hb => ?_⟩
    obtain ⟨x, hx, rfl⟩ := List.mem_map.mp hb
    exact (hbars x hx).2.2.2.2
  have hcloses : closesOf history = List.replicate history.length cv := by
    unfold closesOf; rw [hmapc, reduceOption_replicate_some]
  have hvols : volsOf history = List.replicate history.length v := by
    unfold volsOf; rw [hmapv, reduceOption_replicate_some]
  have hois : oisOf history = List.replicate history.length w := by
    unfold oisOf; rw [hmapw, reduceOption_replicate_some]
  have hacc : ∀ i, i < history.length → (history[i]?).bind Bar.c = some cv := by
    intro i hi
    rw [List.getElem?_eq_getElem hi]
    simp [(hbars _ (List.getElem_mem hi)).2.2.1]
  have hlast : lastCloseOf history = some cv := hacc _ (by omega)
  have hprev : prevCloseOf history = some cv := hacc _ (by omega)
  have hbase : base5Of history = some cv := hacc _ (by omega)
  have hret1 : ret1dOf history = 0 := by
    unfold ret1dOf
    rw [hprev, hlast]
    by_cases hcv : cv = 0
    · simp [hcv]
    · simp [hcv, div_self hcv]
  have hret5 : ret5dOf history = 0 := by
    unfold ret5dOf
    rw [hbase, hlast]
    by_cases hcv : cv = 0
    · simp [hcv]
    · simp [hcv, div_self hcv]
  have hema20 : ema (closesOf history) 20 = some cv := by
    rw [hcloses]; exact ema_replicate _ 20 cv (by norm_num) (by omega)
  have hema50 : ema (closesOf history) 50 = some cv := by
    rw [hcloses]; exact ema_replicate _ 50 cv (by norm_num) (by omega)
  have hspread : emaSpreadOf history = 0 := by
    unfold emaSpreadOf
    rw [hema20, hema50]
    by_cases hcv : cv = 0
    · simp [hcv]
    · simp [hcv, div_self hcv]
  have hmaphlc : (history.map fun x => (⟨x.h, x.l, x.c⟩ : HLCBar))
      = List.replicate history.length ⟨cv, cv, some cv⟩ := by
    rw [List.eq_replicate_iff]
    refine ⟨by simp, fun b hb => ?_⟩
    obtain ⟨x, hx, rfl⟩ := List.mem_map.mp hb
    obtain ⟨h1, h2, h3, -⟩ := hbars x hx
    rw [h1, h2, h3]
  have hatr : atrOf history = some 0 := by
    unfold atrOf; rw [hmaphlc]; exact atr14_const _ cv (by omega)
  have hatrPct : atrPctOf history = 0 := by
    unfold atrPctOf
    rw [hatr, hlast]
    by_cases hcv : cv = 0 <;> simp [hcv]
  have hrisk : riskPenaltyOf history = 0 := by
    unfold riskPenaltyOf clamp
    rw [hatrPct]
    norm_num
  have hvolZ : volZOf s history = 0 := by
    unfold volZOf
    rw [hvols, zscore_replicate s _ 60 v (by norm_num) (by omega)]
    rfl
  have hoiZ : oiZOf s history = 0 := by
    unfold oiZOf
    rw [hois, zscore_replicate s _ 60 w (by norm_num) (by omega)]
    rfl
  have htrend : trendOf history = 0 := by
    unfold trendOf clamp
    rw [hspread]
    norm_num
  have hmom : momentumOf history = 0 := by
    unfold momentumOf clamp
    rw [hret5, hret1]
    norm_num
  have hpart : participationOf s history = 0 := by
    unfold participationOf clamp
    rw [hvolZ, hoiZ]
    norm_num
  have hscore : scoreOf s history = 0 := by
    unfold scoreOf clamp
    rw [htrend, hmom, hpart]
    norm_num
  have hverd : verdictOfScore (scoreOf s history) = "HOLD" := by
    rw [hscore]
    unfold verdictOfScore
    norm_num
  have hagree : agreementOf s history = 1 := by
    unfold agreementOf
    rw [htrend, hmom, hpart, hscore]
    norm_num [jsSign]
  have hconf : confidenceOf s history = 45 := by
    unfold confidenceOf rawConfOf jsRound clamp
    rw [hscore, hagree, hrisk]
    norm_num
  have hge : ¬ history.length < 60 := by omega
  rw [computeScore_of_ge s history hge]
  exact ⟨hscore, hverd, hconf⟩

/-- Witness for C10 at a concrete flat 60-bar history. -/
theorem flat_history_confidence_witness :
    (computeScore sqrtModel flatHistory).score = 0 ∧
    (computeScore sqrtModel flatHistory).verdict = "HOLD" ∧
    (computeScore sqrtModel flatHistory).confidence = 45 :=
  flat_history_confidence sqrtModel flatHistory 100 9 4 (by decide) (by decide)

/-! ## C9: high/low affect only confidence, never score or verdict -/

/-- The per-bar data C9 requires to agree: date, close, volume, open
interest (high and low are left free). -/
def keyOf (b : Bar) : ℕ × Option ℚ × Option ℚ × Option ℚ := (b.date, b.c, b.vol, b.oi)

lemma bind_c_congr {o₁ o₂ : Option Bar} (h : o₁.map Bar.c = o₂.map Bar.c) :
    o₁.bind Bar.c = o₂.bind Bar.c := by
  cases o₁ <;> cases o₂ <;> simp_all

/-- C9: two histories of at least 60 bars agreeing on every bar's date,
close, volume and open interest (differing only in high/low) get the same
score and the same verdict; the ATR-derived risk penalty touches only the
confidence. -/
theorem score_ignores_range (s : ℚ → ℚ) (h₁ h₂ : List Bar)
    (h60 : 60 ≤ h₁.length)
    (hkey : h₁.map keyOf = h₂.map keyOf) :
    (computeScore s h₁).score = (computeScore s h₂).score ∧
    (computeScore s h₁).verdict = (computeScore s h₂).verdict := by
  have hlen : h₁.length = h₂.length := by
    have := congrArg List.length hkey
    simpa using this
  have hc : h₁.map Bar.c = h₂.map Bar.c := by
    have := congrArg (List.map (fun t : ℕ × Option ℚ × Option ℚ × Option ℚ => t.2.1)) hkey
    simpa [List.map_map, Function.comp_def, keyOf] using this
  have hvol : h₁.map Bar.vol = h₂.map Bar.vol := by
    have := congrArg (List.map (fun t : ℕ × Option ℚ × Option ℚ × Option ℚ => t.2.2.1)) hkey
    simpa [List.map_map, Function.comp_def, keyOf] using this
  have hoi : h₁.map Bar.oi = h₂.map Bar.oi := by
    have := congrArg (List.map (fun t : ℕ × Option ℚ × Option ℚ × Option ℚ => t.2.2.2)) hkey
    simpa [List.map_map, Function.comp_def, keyOf] using this
  have hacc : ∀ i : ℕ, (h₁[i]?).bind Bar.c = (h₂[i]?).bind Bar.c := by
    intro i
    apply bind_c_congr
    have := congrArg (fun l : List (Option ℚ) => l[i]?) hc
    simpa [List.getElem?_map] using this
  have hlast : lastCloseOf h₁ = lastCloseOf h₂ := by
    unfold lastCloseOf
    rw [hlen]
    exact hacc _
  have hprev : prevCloseOf h₁ = prevCloseOf h₂ := by
    unfold prevCloseOf
    rw [hlen]
    exact hacc _
  have hbase : base5Of h₁ = base5Of h₂ := by
    unfold base5Of
    rw [hlen]
    exact hacc _
  have hcl : closesOf h₁ = closesOf h₂ := by unfold closesOf; rw [hc]
  have hvl : volsOf h₁ = volsOf h₂ := by unfold volsOf; rw [hvol]
  have hol : oisOf h₁ = oisOf h₂ := by unfold oisOf; rw [hoi]
  have hret1 : ret1dOf h₁ = ret1dOf h₂ := by unfold ret1dOf; rw [hprev, hlast]
  have hret5 : ret5dOf h₁ = ret5dOf h₂ := by unfold ret5dOf; rw [hbase, hlast]
  have hspr : emaSpreadOf h₁ = emaSpreadOf h₂ := by unfold emaSpreadOf; rw [hcl]
  have hvz : volZOf s h₁ = volZOf s h₂ := by unfold volZOf; rw [hvl]
  have hoz : oiZOf s h₁ = oiZOf s h₂ := by unfold oiZOf; rw [hol]
  have htr : trendOf h₁ = trendOf h₂ := by unfold trendOf; rw [hspr]
  have hmo : momentumOf h₁ = momentumOf h₂ := by unfold momentumOf; rw [hret5, hret1]
  have hpa : participationOf s h₁ = participationOf s h₂ := by
    unfold participationOf; rw [hoz, hvz]
  have hsc : scoreOf s h₁ = scoreOf s h₂ := by unfold scoreOf; rw [htr, hmo, hpa]
  have hge₁ : ¬ h₁.length < 60 := by omega
  have hge₂ : ¬ h₂.length < 60 := by omega
  rw [computeScore_of_ge s h₁ hge₁, computeScore_of_ge s h₂ hge₂]
  dsimp only
  exact ⟨hsc, by rw [hsc]⟩

/-- Witness for C9: the rising history and the same history with widened
high/low ranges have equal score and verdict. -/
theorem score_ignores_range_witness :
    (computeScore sqrtModel risingHistory).score
      = (computeScore sqrtModel rangedHistory).score ∧
    (computeScore sqrtModel risingHistory).verdict
      = (computeScore sqrtModel rangedHistory).verdict :=
  score_ignores_range sqrtModel risingHistory rangedHistory (by decide) (by decide)

/-! ## C2: the ingestion step of `main` in `tools/update_mcx.js` -/

/-- The canonical bar produced by `mapRowToBar` in `lib_mcx.js` (all fields
may be missing in a raw row). -/
structure MappedBar where
  o : Option ℚ
  h : Option ℚ
  l : Option ℚ
  c : Option ℚ
  pc : Option ℚ
  vol : Option ℚ
  val : Option ℚ
  oi : Option ℚ
  expiry : Option String
deriving DecidableEq

/-- One line of the persisted history log (`mcx_gold_history.jsonl`). -/
structure Record where
  date : ℕ
  exchange : String
  instrument : String
  expiry : Option String
  o : ℚ
  h : ℚ
  l : ℚ
  c : ℚ
  prev_close : Option ℚ
  volume : Option ℚ
  value : Option ℚ
  open_interest : Option ℚ
  updated : ℕ
  source : String
deriving DecidableEq

/-- The `ohlc` object of the latest snapshot. -/
structure OHLC where
  o : ℚ
  h : ℚ
  l : ℚ
  c : ℚ
deriving DecidableEq

/-- The latest snapshot (`mcx_gold_latest.json`). -/
structure Latest where
  date : ℕ
  exchange : String
  instrument : String
  expiry : Option String
  ohlc : OHLC
  prev_close : Option ℚ
  volume : Option ℚ
  value : Option ℚ
  open_interest : Option ℚ
  signals : Signals
  score : ℚ
  verdict : String
  confidence : ℤ
  updated : ℕ
  source : String
deriving DecidableEq

/-- JS `bar.expiry || null` (an empty string is falsy). -/
def jsOrNullStr (x : Option String) : Option String :=
  match x with
  | some e => if e = "" then none else some e
  | none => none

/-- How a persisted `Record` is seen by `computeScore`: the scoring pass
reads fields named `c`, `h`, `l`, `vol`, `oi`, but records store volume and
open interest under `volume` / `open_interest`, so those two are absent for
scoring. -/
def recordToBar (r : Record) : Bar :=
  { date := r.date, o := some r.o, h := r.h, l := r.l, c := some r.c,
    vol := none, oi := none }

/-- The history record built by `main` for a validated bar. -/
def ingestRecord (now date : ℕ) (bo bh bl bc : ℚ) (bar : MappedBar)
    (src : String) : Record :=
  { date := date, exchange := "MCX", instrument := "GOLD",
    expiry := jsOrNullStr bar.expiry, o := bo, h := bh, l := bl, c := bc,
    prev_close := bar.pc, volume := bar.vol, value := bar.val,
    open_interest := bar.oi, updated := now, source := src }

/-- The latest snapshot built by `main` from the last sorted record and the
scoring result. -/
def mkLatest (latest : Record) (res : ScoreResult) (now : ℕ) : Latest :=
  { date := latest.date, exchange := latest.exchange,
    instrument := latest.instrument, expiry := latest.expiry,
    ohlc := ⟨latest.o, latest.h, latest.l, latest.c⟩,
    prev_close := latest.prev_close, volume := latest.volume,
    value := latest.value, open_interest := latest.open_interest,
    signals := res.signals, score := res.score, verdict := res.verdict,
    confidence := res.confidence, updated := now, source := "MCX_BHAVCOPY" }

/-- The ingestion step of `main`: validate the mapped bar's OHLC, append a
record for the date unless one exists (duplicate dates are a no-op), sort
ascending by date, score, and emit the latest snapshot.  Returns the
persisted history (append order) and the snapshot; `now` is the wall-clock
timestamp recorded in `updated` fields. -/
def runIngest (s : ℚ → ℚ) (now : ℕ) (stored : List Record) (date : ℕ)
    (bar : MappedBar) (src : String) : Except String (List Record × Latest) :=
  match bar.o, bar.h, bar.l, bar.c with
  | some bo, some bh, some bl, some bc =>
    let history := if stored.any (fun x => x.date == date) then stored
      else stored ++ [ingestRecord now date bo bh bl bc bar src]
    let sorted := history.mergeSort (fun a b => decide (a.date ≤ b.date))
    match sorted.getLast? with
    | some latest =>
        Except.ok (history, mkLatest latest (computeScore s (sorted.map recordToBar)) now)
    | none => Except.error "empty history"
  | _, _, _, _ => Except.error "Parsed GOLD row but OHLC not numeric."

/-- The persisted history after an ingestion run (empty on a fatal error). -/
def ingestHistory (x : Except String (List Record × Latest)) : List Record :=
  match x with
  | Except.ok p => p.1
  | Except.error _ => []

/-- The latest snapshot written by an ingestion run (`none` on a fatal
error). -/
def ingestLatest (x : Except String (List Record × Latest)) : Option Latest :=
  match x with
  | Except.ok p => some p.2
  | Except.error _ => none

/-- Evaluation of `runIngest` when no record for the date exists yet. -/
lemma runIngest_fresh (s : ℚ → ℚ) (now : ℕ) (stored : List Record) (date : ℕ)
    (bar : MappedBar) (src : String) (bo bh bl bc : ℚ) (latest : Record)
    (ho : bar.o = some bo) (hh : bar.h = some bh) (hl : bar.l = some bl)
    (hc : bar.c = some bc)
    (hpres : stored.any (fun x => x.date == date) = false)
    (hlatest : ((stored ++ [ingestRecord now date bo bh bl bc bar src]).mergeSort
        (fun a b => decide (a.date ≤ b.date))).getLast? = some latest) :
    runIngest s now stored date bar src
      = Except.ok (stored ++ [ingestRecord now date bo bh bl bc bar src],
          mkLatest latest
            (computeScore s
              (((stored ++ [ingestRecord now date bo bh bl bc bar src]).mergeSort
                (fun a b => decide (a.date ≤ b.date))).map recordToBar))
            now) := by
  unfold runIngest
  rw [ho, hh, hl, hc]
  dsimp only
  rw [hpres, if_neg Bool.false_ne_true, hlatest]

/-- Evaluation of `runIngest` when a record for the date already exists: the
append is a no-op. -/
lemma runIngest_dup (s : ℚ → ℚ) (now : ℕ) (stored : List Record) (date : ℕ)
    (bar : MappedBar) (src : String) (bo bh bl bc : ℚ) (latest : Record)
    (ho : bar.o = some bo) (hh : bar.h = some bh) (hl : bar.l = some bl)
    (hc : bar.c = some bc)
    (hpres : stored.any (fun x => x.date == date) = true)
    (hlatest : (stored.mergeSort
        (fun a b => decide (a.date ≤ b.date))).getLast? = some latest) :
    runIngest s now stored date bar src
      = Except.ok (stored,
          mkLatest latest
            (computeScore s
              ((stored.mergeSort (fun a b => decide (a.date ≤ b.date))).map recordToBar))
            now) := by
  unfold runIngest
  rw [ho, hh, hl, hc]
  dsimp only
  rw [hpres, if_pos rfl, hlatest]

/-- A concrete valid mapped bar. -/
def sampleMapped : MappedBar :=
  { o := some 10, h := some 12, l := some 9, c := some 11, pc := some 10,
    vol := some 3, val := some 30, oi := some 7, expiry := none }

/-- Counterexample to C2 as stated: ingesting the same date twice (with
wall-clock timestamps 0 and 1) produces two different latest snapshot files
— they differ in the `updated` field. -/
theorem ingest_snapshot_differs :
    ingestLatest (runIngest sqrtModel 1
        (ingestHistory (runIngest sqrtModel 0 [] 7 sampleMapped "MCX_BHAVCOPY_FILE"))
        7 sampleMapped "MCX_BHAVCOPY_FILE")
      ≠ ingestLatest (runIngest sqrtModel 0 [] 7 sampleMapped "MCX_BHAVCOPY_FILE") := by
  have hlat1 : (([] ++ [ingestRecord 0 7 10 12 9 11 sampleMapped "MCX_BHAVCOPY_FILE"]).mergeSort
      (fun a b => decide (a.date ≤ b.date))).getLast?
      = some (ingestRecord 0 7 10 12 9 11 sampleMapped "MCX_BHAVCOPY_FILE") := by
    simp [List.mergeSort_singleton]
  rw [runIngest_fresh sqrtModel 0 [] 7 sampleMapped "MCX_BHAVCOPY_FILE" 10 12 9 11
    (ingestRecord 0 7 10 12 9 11 sampleMapped "MCX_BHAVCOPY_FILE") rfl rfl rfl rfl rfl hlat1]
  simp only [ingestHistory, List.nil_append]
  have hpres2 : ([ingestRecord 0 7 10 12 9 11 sampleMapped "MCX_BHAVCOPY_FILE"].any
      (fun x => x.date == 7)) = true := by simp [ingestRecord]
  have hlat2 : (([ingestRecord 0 7 10 12 9 11 sampleMapped "MCX_BHAVCOPY_FILE"]).mergeSort
      (fun a b => decide (a.date ≤ b.date))).getLast?
      = some (ingestRecord 0 7 10 12 9 11 sampleMapped "MCX_BHAVCOPY_FILE") := by
    simp [List.mergeSort_singleton]
  rw [runIngest_dup sqrtModel 1 [ingestRecord 0 7 10 12 9 11 sampleMapped "MCX_BHAVCOPY_FILE"]
    7 sampleMapped "MCX_BHAVCOPY_FILE" 10 12 9 11
    (ingestRecord 0 7 10 12 9 11 sampleMapped "MCX_BHAVCOPY_FILE") rfl rfl rfl rfl hpres2 hlat2]
  simp [ingestLatest, mkLatest, Latest.mk.injEq]

/-- C2 amended: starting from a history without the date, running the
ingestion twice with bars for the same date leaves the persisted history
with exactly one record for that date (the second run is a no-op on the
store), and the two latest snapshots agree on every field except the
wall-clock `updated` timestamp. -/
theorem ingest_idempotent_mod_updated
    (s : ℚ → ℚ) (now₁ now₂ : ℕ) (stored : List Record) (date : ℕ)
    (bar bar₂ : MappedBar) (src₁ src₂ : String)
    (bo bh bl bc bo₂ bh₂ bl₂ bc₂ : ℚ)
    (ho : bar.o = some bo) (hh : bar.h = some bh) (hl : bar.l = some bl)
    (hc : bar.c = some bc)
    (ho₂ : bar₂.o = some bo₂) (hh₂ : bar₂.h = some bh₂) (hl₂ : bar₂.l = some bl₂)
    (hc₂ : bar₂.c = some bc₂)
    (hfresh : ∀ r ∈ stored, r.date ≠ date) :
    (ingestLatest (runIngest s now₁ stored date bar src₁)).isSome = true ∧
    ingestHistory (runIngest s now₂
        (ingestHistory (runIngest s now₁ stored date bar src₁)) date bar₂ src₂)
      = ingestHistory (runIngest s now₁ stored date bar src₁) ∧
    (ingestHistory (runIngest s now₂
        (ingestHistory (runIngest s now₁ stored date bar src₁)) date bar₂ src₂)).countP
        (fun r => r.date == date) = 1 ∧
    ingestLatest (runIngest s now₂
        (ingestHistory (runIngest s now₁ stored date bar src₁)) date bar₂ src₂)
      = (ingestLatest (runIngest s now₁ stored date bar src₁)).map
          (fun sn => { sn with updated := now₂ }) := by
  have hpres₁ : stored.any (fun x => x.date == date) = false := by
    rw [List.any_eq_false]
    intro x hx
    simp only [beq_iff_eq]
    exact hfresh x hx
  have hne : (stored ++ [ingestRecord now₁ date bo bh bl bc bar src₁]).mergeSort
      (fun a b => decide (a.date ≤ b.date)) ≠ [] := by
    intro hemp
    have hlen0 := congrArg List.length hemp
    rw [List.length_mergeSort] at hlen0
    simp at hlen0
  obtain ⟨latest, hlatest⟩ := Option.isSome_iff_exists.mp (List.getLast?_isSome.mpr hne)
  have h1 := runIngest_fresh s now₁ stored date bar src₁ bo bh bl bc latest
    ho hh hl hc hpres₁ hlatest
  have hpres₂ : ((stored ++ [ingestRecord now₁ date bo bh bl bc bar src₁]).any
      (fun x => x.date == date)) = true := by
    rw [List.any_eq_true]
    refine ⟨ingestRecord now₁ date bo bh bl bc bar src₁, List.mem_append_right _ ?_, ?_⟩
    · exact List.mem_singleton.mpr rfl
    · simp [ingestRecord]
  have h2 := runIngest_dup s now₂ (stored ++ [ingestRecord now₁ date bo bh bl bc bar src₁])
    date bar₂ src₂ bo₂ bh₂ bl₂ bc₂ latest ho₂ hh₂ hl₂ hc₂ hpres₂ hlatest
  rw [h1]
  simp only [ingestHistory]
  rw [h2]
  simp only [ingestHistory, ingestLatest, Option.isSome_some, Option.map_some']
  refine ⟨by trivial, by trivial, ?_, ?_⟩
  · rw [List.countP_append]
    have hz : stored.countP (fun r => r.date == date) = 0 :=
      List.countP_eq_zero.mpr (fun a ha => by
        simp only [beq_iff_eq]
        exact hfresh a ha)
    rw [hz]
    simp [ingestRecord]
  · rfl

/-- Witness for C2 (amended) at a concrete ingestion pair. -/
theorem ingest_idempotent_mod_updated_witness :
    (ingestLatest (runIngest sqrtModel 0 [] 7 sampleMapped "MCX_BHAVCOPY_FILE")).isSome = true ∧
    ingestHistory (runIngest sqrtModel 1
        (ingestHistory (runIngest sqrtModel 0 [] 7 sampleMapped "MCX_BHAVCOPY_FILE"))
        7 sampleMapped "MCX_BHAVCOPY_URL")
      = ingestHistory (runIngest sqrtModel 0 [] 7 sampleMapped "MCX_BHAVCOPY_FILE") ∧
    (ingestHistory (runIngest sqrtModel 1
        (ingestHistory (runIngest sqrtModel 0 [] 7 sampleMapped "MCX_BHAVCOPY_FILE"))
        7 sampleMapped "MCX_BHAVCOPY_URL")).countP (fun r => r.date == 7) = 1 ∧
    ingestLatest (runIngest sqrtModel 1
        (ingestHistory (runIngest sqrtModel 0 [] 7 sampleMapped "MCX_BHAVCOPY_FILE"))
        7 sampleMapped "MCX_BHAVCOPY_URL")
      = (ingestLatest (runIngest sqrtModel 0 [] 7 sampleMapped "MCX_BHAVCOPY_FILE")).map
          (fun sn => { sn with updated := 1 }) :=
  ingest_idempotent_mod_updated sqrtModel 0 1 [] 7 sampleMapped sampleMapped
    "MCX_BHAVCOPY_FILE" "MCX_BHAVCOPY_URL" 10 12 9 11 10 12 9 11
    rfl rfl rfl rfl rfl rfl rfl rfl (by decide)
